import Mathlib

/-!
Verification of the "Planetary Computer to S3 Indexer" Lambda task
(`src/cirrus/tasks/c2/src/handler.py`).

The Python handler is shallowly embedded below.  Python dicts are ordered
association lists over a JSON-like value type `JVal`; external collaborators
(the STAC catalog search, the asset signer, HTTP fetch, and the S3 client)
are oracle parameters, and the side effects the handler performs are recorded
in an explicit effect trace.  Exceptions are modelled with `Except`, one
error constructor per raise site, carrying the Python exception message.
-/

set_option autoImplicit false

namespace PC2S3

/-- JSON-like Python values stored in a Cirrus payload.  The `circular`
constructor stands for content on which `json.dumps(-, default=str)` raises
(a circular structure); every other constructor serializes. -/
inductive JVal where
  | null
  | bool (b : Bool)
  | num (n : Int)
  | str (s : String)
  | arr (elems : List JVal)
  | obj (fields : List (String × JVal))
  | circular
deriving Inhabited

/-- A Python dict with string keys, in insertion order. -/
abbrev Dict := List (String × JVal)

/-- Python `d.get(k)` returning `none` when the key is missing. -/
def dictGet? (d : Dict) (k : String) : Option JVal :=
  match d.find? (fun p => p.1 == k) with
  | some p => some p.2
  | none => none

/-- Python `d.get(k, v)`. -/
def dictGetD (d : Dict) (k : String) (v : JVal) : JVal :=
  (dictGet? d k).getD v

/-- Python `d[k] = v`: update in place when the key exists (keeping its position),
append at the end otherwise — Python dict assignment semantics. -/
def dictSet (d : Dict) (k : String) (v : JVal) : Dict :=
  if (d.find? (fun p => p.1 == k)).isSome then
    d.map (fun p => if p.1 == k then (k, v) else p)
  else
    d ++ [(k, v)]

/-- Python truthiness test (`not x` is `falsy x`). -/
def falsy : JVal → Bool
  | .null => true
  | .bool b => !b
  | .num n => n == 0
  | .str s => s == ""
  | .arr l => l.isEmpty
  | .obj l => l.isEmpty
  | .circular => false

/-! ### STAC items (`pystac.Item`), restricted to the fields the handler touches -/

/-- A STAC link (`pystac.Link`): relation role and target. -/
structure Link where
  rel : String
  href : String
deriving DecidableEq, Inhabited

/-- A STAC asset (`pystac.Asset`): location and media type
(`media_type is None` when absent). -/
structure Asset where
  href : String
  media_type : Option String
deriving DecidableEq, Inhabited

/-- A STAC item (`pystac.Item`): id, named assets in order, ordered links.
`extraFields` stands for all remaining item content (geometry, properties,
…), which the handler never touches. -/
structure Item where
  id : String
  assets : List (String × Asset)
  links : List Link
  extraFields : List (String × JVal)
deriving Inhabited

/-! ### `prepare_item_for_indexing` (handler.py lines 237-264)

The Python code walks `item.links`, renaming a `"self"` relation to
`"canonical"` in place, collecting every link whose relation is not in
`["canonical", "collection", "root"]`, and finally removing the collected
links.  Renamed links are not collected (the `elif`), so the net effect is a
rename of the `"self"` links followed by a filter keeping the allowed
relations, preserving order. -/

/-- Relations kept by the indexing transform. -/
def allowedRels : List String := ["canonical", "collection", "root"]

/-- The in-place rename `if link.rel == "self": link.rel = "canonical"`. -/
def renameSelf (l : Link) : Link :=
  if l.rel = "self" then { l with rel := "canonical" } else l

/-- Model of `prepare_item_for_indexing` from handler.py. -/
def prepare_item_for_indexing (item : Item) : Item :=
  { item with
    links := (item.links.map renameSelf).filter fun l =>
      decide (l.rel ∈ allowedRels) }

/-! ### `json.dumps(-, default=str)` (used by `should_upload_to_s3` and
`upload_payload_to_s3`)

Python defaults: `ensure_ascii=True` (everything outside printable ASCII is
`\uXXXX`-escaped, so the output is pure ASCII), separators `", "` and
`": "`.  With `default=str` the only way `dumps` fails is a circular
structure, modelled by `JVal.circular`. -/

/-- Lowercase hex digit. -/
def hexDigit (n : Nat) : Char :=
  if n < 10 then Char.ofNat (48 + n) else Char.ofNat (87 + n % 16)

/-- Four lowercase hex digits, as in Python's `\uXXXX` escapes. -/
def hex4 (n : Nat) : String :=
  String.mk [hexDigit (n / 4096 % 16), hexDigit (n / 256 % 16),
             hexDigit (n / 16 % 16), hexDigit (n % 16)]

/-- Escaping of one character as `json.dumps` does it (`ensure_ascii=True`). -/
def escChar (c : Char) : String :=
  if c = '"' then "\\\""
  else if c = '\\' then "\\\\"
  else if c = '\n' then "\\n"
  else if c = '\t' then "\\t"
  else if c = '\r' then "\\r"
  else if c = Char.ofNat 8 then "\\b"
  else if c = Char.ofNat 12 then "\\f"
  else if c.toNat < 32 then "\\u" ++ hex4 c.toNat
  else if c.toNat < 127 then String.singleton c
  else if c.toNat ≤ 65535 then "\\u" ++ hex4 c.toNat
  else
    let v := c.toNat - 65536
    "\\u" ++ hex4 (55296 + v / 1024) ++ "\\u" ++ hex4 (56320 + v % 1024)

/-- A JSON string literal as Python emits it. -/
def jsonStr (s : String) : String :=
  "\"" ++ String.join (s.toList.map escChar) ++ "\""

mutual

/-- Model of `json.dumps(v, default=str)`: `none` models the `ValueError` raised on
circular content. -/
def dumps : JVal → Option String
  | .null => some "null"
  | .bool true => some "true"
  | .bool false => some "false"
  | .num n => some (toString n)
  | .str s => some (jsonStr s)
  | .circular => none
  | .arr l =>
    match dumpsArr l with
    | some parts => some ("[" ++ String.intercalate ", " parts ++ "]")
    | none => none
  | .obj l =>
    match dumpsObj l with
    | some parts => some ("\x7b" ++ String.intercalate ", " parts ++ "\x7d")
    | none => none

/-- Serialize the elements of a JSON array. -/
def dumpsArr : List JVal → Option (List String)
  | [] => some []
  | v :: vs =>
    match dumps v, dumpsArr vs with
    | some s, some ss => some (s :: ss)
    | _, _ => none

/-- Serialize the entries of a JSON object. -/
def dumpsObj : List (String × JVal) → Option (List String)
  | [] => some []
  | (k, v) :: vs =>
    match dumps v, dumpsObj vs with
    | some s, some ss => some ((jsonStr k ++ ": " ++ s) :: ss)
    | _, _ => none

end

/-! ### Date normalization (handler.py lines 150-157) -/

/-- Gregorian leap year, as implemented by Python's `datetime`. -/
def isLeap (y : Nat) : Bool :=
  y % 4 == 0 && (y % 100 != 0 || y % 400 == 0)

/-- Days in a month. -/
def daysInMonth (y m : Nat) : Nat :=
  if m == 2 then (if isLeap y then 29 else 28)
  else if m == 4 || m == 6 || m == 9 || m == 11 then 30
  else 31

/-- A calendar date (the handler's dates carry no time component). -/
structure Date where
  year : Nat
  month : Nat
  day : Nat
deriving DecidableEq

/-- Model of `start_date + timedelta(days=1)`: CPython's `datetime` is
bounded by `MAXYEAR = 9999`, so stepping past `9999-12-31` raises
`OverflowError` ("date value out of range"), modelled as `none`. -/
def nextDay (d : Date) : Option Date :=
  if d.day < daysInMonth d.year d.month then some ⟨d.year, d.month, d.day + 1⟩
  else if d.month < 12 then some ⟨d.year, d.month + 1, 1⟩
  else if d.year < 9999 then some ⟨d.year + 1, 1, 1⟩
  else none

/-- Zero-padded two-digit rendering. -/
def pad2 (n : Nat) : String :=
  if n < 10 then "0" ++ toString n else toString n

/-- Zero-padded four-digit rendering. -/
def pad4 (n : Nat) : String :=
  if n < 10 then "000" ++ toString n
  else if n < 100 then "00" ++ toString n
  else if n < 1000 then "0" ++ toString n
  else toString n

/-- The `YYYY-MM-DD` rendering of a date. -/
def Date.ymd (d : Date) : String :=
  pad4 d.year ++ "-" ++ pad2 d.month ++ "-" ++ pad2 d.day

/-- Model of `datetime(y, m, d).isoformat()`: a midnight datetime renders as
`YYYY-MM-DDT00:00:00`. -/
def Date.isoformat (d : Date) : String :=
  d.ymd ++ "T00:00:00"

/-- Decimal digit value of a character. -/
def digit? (c : Char) : Option Nat :=
  if c.isDigit then some (c.toNat - 48) else none

/-- Model of `datetime.fromisoformat` restricted to the `YYYY-MM-DD` date-only form
the task contract admits; rejects malformed strings and invalid calendar
dates, as `fromisoformat` does. -/
def parseYMD (s : String) : Option Date :=
  match s.toList with
  | [y1, y2, y3, y4, '-', m1, m2, '-', d1, d2] => do
    let a ← digit? y1
    let b ← digit? y2
    let c ← digit? y3
    let d ← digit? y4
    let e ← digit? m1
    let f ← digit? m2
    let g ← digit? d1
    let h ← digit? d2
    let y := ((a * 10 + b) * 10 + c) * 10 + d
    let m := e * 10 + f
    let dd := g * 10 + h
    if 1 ≤ m ∧ m ≤ 12 ∧ 1 ≤ dd ∧ dd ≤ daysInMonth y m ∧ 1 ≤ y then
      some ⟨y, m, dd⟩
    else none
  | _ => none

/-- Boolean infix test on character lists. -/
def listContainsSeq (needle : List Char) : List Char → Bool
  | [] => needle.isEmpty
  | c :: cs => needle.isPrefixOf (c :: cs) || listContainsSeq needle cs

/-- Python's `needle in hay` substring test. -/
def strContains (hay needle : String) : Bool :=
  listContainsSeq needle.toList hay.toList

/-- The exceptions the date normalization can raise: the `ValueError` from
`datetime.fromisoformat`, or the `OverflowError` from the day increment at
the `MAXYEAR` bound. -/
inductive DateErr where
  | invalidIso (ds : String)
  | overflow
deriving DecidableEq

/-- The `datetime_query` computation of `query_planetary_computer`
(handler.py lines 151-157): a date containing `"/"` passes through; a single
date is parsed with `fromisoformat` (`ValueError` on failure), incremented
by one day (`OverflowError` past `9999-12-31`), and the query becomes
`start.isoformat() + "/" + (start + 1 day).isoformat()`. -/
def datetime_query (date : String) : Except DateErr String :=
  if strContains date "/" then .ok date
  else
    match parseYMD date with
    | none => .error (.invalidIso date)
    | some d =>
      match nextDay d with
      | none => .error .overflow
      | some d2 => .ok (d.isoformat ++ "/" ++ d2.isoformat)

/-! ### `should_upload_to_s3` (handler.py lines 300-327) -/

/-- The offload threshold: 240 KB, a buffer under the 256 KB transport
limit. -/
def THRESHOLD : Nat := 240000

/-- Model of `should_upload_to_s3` from handler.py: serialize the payload, compare
the UTF-8 byte length with the threshold; on a serialization failure, log
and default to `true`. -/
def should_upload_to_s3 (payload : Dict) : Bool :=
  match dumps (.obj payload) with
  | some s => decide (THRESHOLD < s.utf8ByteSize)
  | none => true

/-! ### Constants, exceptions, collaborators -/

/-- The task name (`TASK_NAME` in handler.py). -/
def TASK_NAME : String := "planetary-computer-to-s3"

/-- The collection identifier (`COLLECTION`, default value). -/
def COLLECTION : String := "sentinel-2-l2a"

/-- Python exceptions the handler can raise, one constructor per raise
site, carrying what `str(e)` exposes. -/
inductive PErr where
  | keyError (k : String)
  | indexError
  | typeError (msg : String)
  | configError
  | isoFormatError (ds : String)
  | overflowError
  | bucketUnsetError
  | circularRefError
  | external (msg : String)
deriving DecidableEq

/-- Python `str(e)` for each modelled exception. -/
def errStr : PErr → String
  | .keyError k => "'" ++ k ++ "'"
  | .indexError => "list index out of range"
  | .typeError m => m
  | .configError => "Both 'tile' and 'date' are required in task configuration"
  | .isoFormatError ds => "Invalid isoformat string: '" ++ ds ++ "'"
  | .overflowError => "date value out of range"
  | .bucketUnsetError => "CIRRUS_PAYLOAD_BUCKET environment variable not set"
  | .circularRefError => "Circular reference detected"
  | .external m => m

/-- Environment configuration read by the module: the two bucket variables
(`os.getenv` yields `None` when unset) and the value `datetime.utcnow()`
renders to during this invocation. -/
structure Env where
  dataBucket : Option String
  payloadBucket : Option String
  now : String

/-- The external collaborators, as oracles fixed for one invocation:
`search` is the catalog query (its argument is the datetime string; a
`.error` covers `Client.open`/network failures), `signHref` is the asset
signer (`planetary_computer.sign` rewrites asset hrefs to authorized URLs
and leaves everything else intact), `fetch` is `requests.get` followed by
`raise_for_status` (returning the body bytes), and `s3put` is
`s3_client.put_object` on (bucket, key, body). -/
structure Oracles where
  search : String → Except String (List Item)
  signHref : String → String
  fetch : String → Except String String
  s3put : String → String → String → Except String Unit

/-- Observable side effects of one invocation, in order. -/
inductive Effect where
  | searchCall (collection : String) (datetimeQ : String) (tile : JVal) (maxItems : JVal)
  | httpGet (href : String)
  | s3Put (bucket : String) (key : String)

/-! ### `query_planetary_computer` (handler.py lines 128-188) -/

/-- Model of `query_planetary_computer`: normalize the date, call the catalog search
with the fixed collection, the datetime query, the tile filter and the
`max_items` cap.  The function's own `try/except` logs and re-raises, so
failures propagate unchanged. -/
def query_planetary_computer (ors : Oracles) (tile : JVal) (date : JVal)
    (maxItems : JVal) : Except PErr (List Item) × List Effect :=
  match date with
  | .str ds =>
    match datetime_query ds with
    | .error (.invalidIso _) => (.error (.isoFormatError ds), [])
    | .error .overflow => (.error .overflowError, [])
    | .ok dq =>
      match ors.search dq with
      | .ok items => (.ok items, [.searchCall COLLECTION dq tile maxItems])
      | .error m => (.error (.external m), [.searchCall COLLECTION dq tile maxItems])
  | _ => (.error (.typeError "argument of type 'NoneType' is not iterable"), [])

/-! ### `download_and_update_item` (handler.py lines 191-234) -/

/-- The guard `asset.media_type and "geotiff" in asset.media_type`. -/
def mediaMatches : Option String → Bool
  | none => false
  | some mt => !(mt == "") && strContains mt "geotiff"

/-- The S3 key for a re-hosted asset (handler.py line 214). -/
def s3AssetKey (itemId assetKey : String) : String :=
  "sentinel-2-l2a/" ++ itemId ++ "/" ++ assetKey ++ ".tif"

/-- How an `Option String` bucket appears inside an f-string (`None` when
unset). -/
def bucketStr : Option String → String
  | some b => b
  | none => "None"

/-- Rewrite the href of every entry with the given asset key
(`item.assets[asset_key].href = ...`; dict keys are unique in Python). -/
def updateAssetHref (assets : List (String × Asset)) (k href : String) :
    List (String × Asset) :=
  assets.map fun p => if p.1 == k then (p.1, { p.2 with href := href }) else p

/-- Model of `planetary_computer.sign`: a fresh item whose asset hrefs are
authorized; ids, keys, media types and links are unchanged. -/
def signItem (signHref : String → String) (item : Item) : Item :=
  { item with assets := item.assets.map fun p => (p.1, { p.2 with href := signHref p.2.href }) }

/-- The body of the per-asset `try` (handler.py lines 209-226) for a
geotiff asset of the signed item: fetch the signed href, put the bytes
under the derived key, and on success report the new `s3://` href.  `none`
is the tolerated per-asset failure (the `except` at 228-232): the href is
left alone. -/
def perAsset (ors : Oracles) (dataBucket : Option String) (itemId k : String)
    (a : Asset) : Option String × List Effect :=
  match ors.fetch a.href with
  | .error _ => (none, [.httpGet a.href])
  | .ok body =>
    let key := s3AssetKey itemId k
    match ors.s3put (bucketStr dataBucket) key body with
    | .error _ => (none, [.httpGet a.href, .s3Put (bucketStr dataBucket) key])
    | .ok _ =>
      (some ("s3://" ++ bucketStr dataBucket ++ "/" ++ key),
       [.httpGet a.href, .s3Put (bucketStr dataBucket) key])

/-- The loop of `download_and_update_item` over the signed item's assets,
threading the original item being mutated. -/
def processAssets (ors : Oracles) (dataBucket : Option String) (itemId : String) :
    List (String × Asset) → Item → Item × List Effect
  | [], it => (it, [])
  | (k, a) :: rest, it =>
    if mediaMatches a.media_type then
      match perAsset ors dataBucket itemId k a with
      | (some href, effs) =>
        let next := processAssets ors dataBucket itemId rest
          { it with assets := updateAssetHref it.assets k href }
        (next.1, effs ++ next.2)
      | (none, effs) =>
        let next := processAssets ors dataBucket itemId rest it
        (next.1, effs ++ next.2)
    else
      processAssets ors dataBucket itemId rest it

/-- Model of `download_and_update_item` from handler.py: sign the item, then for
every signed asset whose media type matches geotiff, download and re-host
it, rewriting the original item's asset href on success. -/
def download_and_update_item (ors : Oracles) (dataBucket : Option String)
    (item : Item) : Item × List Effect :=
  processAssets ors dataBucket item.id (signItem ors.signHref item).assets item

/-! ### The orchestrator (`lambda_handler`, handler.py lines 41-125) -/

/-- Serialization of a link as `pystac` emits it, restricted to the modelled fields. -/
def linkToDict (l : Link) : JVal :=
  .obj [("rel", .str l.rel), ("href", .str l.href)]

/-- Serialization of an asset as `pystac` emits it, restricted to the modelled fields. -/
def assetToDict (a : Asset) : JVal :=
  .obj (("href", .str a.href) ::
    (match a.media_type with
     | some t => [("type", .str t)]
     | none => []))

/-- Model of `item.to_dict()`, restricted to the modelled fields (the unmodelled
item content is carried through `extraFields`). -/
def itemToDict (it : Item) : JVal :=
  .obj ([("type", .str "Feature"), ("id", .str it.id),
         ("links", .arr (it.links.map linkToDict)),
         ("assets", .obj (it.assets.map fun p => (p.1, assetToDict p.2)))]
        ++ it.extraFields)

/-- The per-item branch of the handler loop (handler.py lines 88-93). -/
def transformItem (ors : Oracles) (dataBucket : Option String)
    (downloadAssets : Bool) (it : Item) : Item × List Effect :=
  if downloadAssets then download_and_update_item ors dataBucket it
  else (prepare_item_for_indexing it, [])

/-- The handler loop (lines 86-95): transform each catalog item in order
and collect the dict forms. -/
def processItems (ors : Oracles) (dataBucket : Option String)
    (downloadAssets : Bool) : List Item → List JVal × List Effect
  | [] => ([], [])
  | it :: rest =>
    let t := transformItem ors dataBucket downloadAssets it
    let next := processItems ors dataBucket downloadAssets rest
    (itemToDict t.1 :: next.1, t.2 ++ next.2)

/-- Lines 98-100: create `event["features"]` if absent, then extend it.
`.extend` on a non-list raises (`AttributeError`, modelled as a
`typeError`). -/
def extendFeatures (event : Dict) (new : List JVal) : Except PErr Dict :=
  let event1 :=
    if (dictGet? event "features").isSome then event
    else dictSet event "features" (.arr [])
  match dictGet? event1 "features" with
  | some (.arr old) => .ok (dictSet event1 "features" (.arr (old ++ new)))
  | _ => .error (.typeError "'JVal' object has no attribute 'extend'")

/-- The task configuration extracted from the event (lines 61-70), with the
Python `.get` defaults applied. -/
structure TaskCfg where
  tile : JVal
  date : JVal
  download_assets : JVal
  max_items : JVal

/-- Lines 61-70: `event["process"][0]`, then
`.get("tasks", {}).get("planetary-computer-to-s3", {})`, then the four
`.get`s.  Structural misuse (a non-list `process`, a non-dict level) is a
`typeError`; a missing `process` key is a `keyError`; an empty `process`
list is an `indexError`. -/
def extractTaskCfg (event : Dict) : Except PErr TaskCfg :=
  match dictGet? event "process" with
  | none => .error (.keyError "process")
  | some (.arr []) => .error .indexError
  | some (.arr (.obj pcd :: _)) =>
    match dictGetD pcd "tasks" (.obj []) with
    | .obj tasksd =>
      match dictGetD tasksd TASK_NAME (.obj []) with
      | .obj tc =>
        .ok ⟨dictGetD tc "tile" .null, dictGetD tc "date" .null,
             dictGetD tc "download_assets" (.bool false),
             dictGetD tc "max_items" (.num 100)⟩
      | _ => .error (.typeError "'JVal' object has no attribute 'get'")
    | _ => .error (.typeError "'JVal' object has no attribute 'get'")
  | some (.arr (_ :: _)) => .error (.typeError "'JVal' object has no attribute 'get'")
  | some _ => .error (.typeError "'JVal' object is not subscriptable")

/-- Python `str()` of a payload id as used in the upload f-strings; container
reprs are not modelled (no claim depends on them). -/
def pyStr : JVal → String
  | .str s => s
  | .num n => toString n
  | .bool true => "True"
  | .bool false => "False"
  | .null => "None"
  | _ => "<object>"

/-- Model of `upload_payload_to_s3` from handler.py (lines 267-297): fail when the
payload bucket is unset (falsy), derive the key from `payload['id']`
(`KeyError` when absent), serialize (`ValueError` on circular content), put
the object, and return the `s3://` URL. -/
def upload_payload_to_s3 (ors : Oracles) (payloadBucket : Option String)
    (payload : Dict) : Except PErr String × List Effect :=
  match payloadBucket with
  | none => (.error .bucketUnsetError, [])
  | some pb =>
    if pb == "" then (.error .bucketUnsetError, [])
    else
      match dictGet? payload "id" with
      | none => (.error (.keyError "id"), [])
      | some idv =>
        let key := TASK_NAME ++ "/" ++ pyStr idv ++ ".json"
        let url := "s3://" ++ pb ++ "/" ++ key
        match dumps (.obj payload) with
        | none => (.error .circularRefError, [])
        | some body =>
          match ors.s3put pb key body with
          | .ok _ => (.ok url, [.s3Put pb key])
          | .error m => (.error (.external m), [.s3Put pb key])

/-- The handler's result: the full payload, or the minimal
`{"url": ...}` reference after an offload. -/
inductive Response where
  | url (u : String)
  | payload (d : Dict)

/-- Steps 4-5 of the pipeline, from a successful catalog query on: process
the items, extend `features`, size-check, and emit or offload.  Error
results carry the event as mutated so far (Python mutates it in place). -/
def afterQuery (env : Env) (ors : Oracles) (event : Dict) (cfg : TaskCfg)
    (items : List Item) : Except (PErr × Dict) Response × List Effect :=
  let p := processItems ors env.dataBucket (!falsy cfg.download_assets) items
  match extendFeatures event p.1 with
  | .error e => (.error (e, event), p.2)
  | .ok event2 =>
    if should_upload_to_s3 event2 then
      match upload_payload_to_s3 ors env.payloadBucket event2 with
      | (.ok u, effs3) => (.ok (.url u), p.2 ++ effs3)
      | (.error e, effs3) => (.error (e, event2), p.2 ++ effs3)
    else
      (.ok (.payload event2), p.2)

/-- The pipeline from a validated configuration on: query the catalog, then
`afterQuery`. -/
def afterValidation (env : Env) (ors : Oracles) (event : Dict)
    (cfg : TaskCfg) : Except (PErr × Dict) Response × List Effect :=
  match query_planetary_computer ors cfg.tile cfg.date cfg.max_items with
  | (.error e, effs) => (.error (e, event), effs)
  | (.ok items, effs) =>
    let r := afterQuery env ors event cfg items
    (r.1, effs ++ r.2)

/-- The body of `lambda_handler`'s `try` (lines 57-111): extract the
configuration, validate `tile`/`date` (truthiness, line 72), and continue. -/
def handlerCore (env : Env) (ors : Oracles) (event : Dict) :
    Except (PErr × Dict) Response × List Effect :=
  match extractTaskCfg event with
  | .error e => (.error (e, event), [])
  | .ok cfg =>
    if falsy cfg.tile || falsy cfg.date then
      (.error (.configError, event), [])
    else
      afterValidation env ors event cfg

/-- The diagnostic record appended on the fatal path (lines 118-124). -/
def errRecord (e : PErr) (now : String) : JVal :=
  .obj [("task", .str TASK_NAME), ("error", .str (errStr e)),
        ("timestamp", .str now)]

/-- Lines 116-124: create `event["errors"]` if absent and append one
record.  `none` models the `AttributeError` Python's `.append` would raise
on a non-list `errors` value (which would replace the re-raised
exception). -/
def annotateError (event : Dict) (e : PErr) (now : String) : Option Dict :=
  let event1 :=
    if (dictGet? event "errors").isSome then event
    else dictSet event "errors" (.arr [])
  match dictGet? event1 "errors" with
  | some (.arr l) => some (dictSet event1 "errors" (.arr (l ++ [errRecord e now])))
  | _ => none

/-- Model of `lambda_handler` from handler.py: the `try` body, with the `except`
clause annotating the mutated event and re-raising the same exception. -/
def lambda_handler (env : Env) (ors : Oracles) (event : Dict) :
    Except (PErr × Option Dict) Response × List Effect :=
  match handlerCore env ors event with
  | (.ok r, effs) => (.ok r, effs)
  | (.error (e, d), effs) => (.error (e, annotateError d e env.now), effs)

/-! ### Claim-facing auxiliary definitions -/

/-- The claim C4 reading of the normalization: the one-day range rendered
with the start and end in the original `YYYY-MM-DD` (date-only) form.
Stated from the spec's words, to be compared with `datetime_query`. -/
def spec_datetime_query (date : String) : Except DateErr String :=
  if strContains date "/" then .ok date
  else
    match parseYMD date with
    | none => .error (.invalidIso date)
    | some d =>
      match nextDay d with
      | none => .error .overflow
      | some d2 => .ok (d.ymd ++ "/" ++ d2.ymd)

/-- The payload's `features` sequence: `[]` when the key is absent, `none`
when the stored value is not a list (outside the data model). -/
def featuresList? (d : Dict) : Option (List JVal) :=
  match dictGet? d "features" with
  | none => some []
  | some (.arr l) => some l
  | some _ => none

/-- The payload's `errors` sequence, with the same conventions. -/
def errorsList? (d : Dict) : Option (List JVal) :=
  match dictGet? d "errors" with
  | none => some []
  | some (.arr l) => some l
  | some _ => none

/-- Asset lookup by key (`item.assets[k]`). -/
def lookupAsset (assets : List (String × Asset)) (k : String) : Option Asset :=
  match assets.find? (fun p => p.1 == k) with
  | some p => some p.2
  | none => none

/-! ### Concrete fixtures for witness runs -/

/-- Fixture oracles: empty search result, identity signer, failing fetch,
succeeding store. -/
def orsTrivial : Oracles :=
  ⟨fun _ => .ok [], id, fun _ => .error "x", fun _ _ _ => .ok ()⟩

/-- Fixture environment: no buckets configured, fixed clock. -/
def envTrivial : Env := ⟨none, none, "T"⟩

/-- Fixture request: a task configuration carrying only a tile. -/
def evTileOnly : Dict :=
  [("process", .arr [.obj [("tasks", .obj [("planetary-computer-to-s3",
    .obj [("tile", .str "33UUP")])])]])]

/-- Fixture item: one geotiff asset and one metadata asset. -/
def itemA : Item :=
  ⟨"it1",
   [("b02", ⟨"http://a", some "image/tiff; application=geotiff; profile=cloud-optimized"⟩),
    ("meta", ⟨"http://m", some "application/json"⟩)],
   [], []⟩

/-- Fixture item: two geotiff assets and one metadata asset. -/
def itemB : Item :=
  ⟨"it1",
   [("b02", ⟨"a", some "image/tiff; application=geotiff"⟩),
    ("b03", ⟨"b", some "image/tiff; application=geotiff"⟩),
    ("meta", ⟨"m", some "application/json"⟩)],
   [], []⟩

/-- Fixture oracles: the fetch of the signed `"a"` asset fails, every other
fetch and every store succeeds. -/
def orsMixed : Oracles :=
  ⟨fun _ => .ok [], fun h => h ++ "?sig",
   fun h => if h == "a?sig" then .error "boom" else .ok "BYTES",
   fun _ _ _ => .ok ()⟩

/-! ### Dictionary and pipeline lemmas -/

theorem find?_map_set (d : Dict) (k : String) (v : JVal)
    (h : (d.find? (fun p => p.1 == k)).isSome) :
    (d.map (fun p => if p.1 == k then (k, v) else p)).find?
      (fun p => p.1 == k) = some (k, v) := by
  induction d with
  | nil => simp [List.find?] at h
  | cons p rest ih =>
    cases hpk : (p.1 == k) with
    | true =>
      simp only [List.map_cons, hpk, if_true]
      exact List.find?_cons_of_pos _ (by simp)
    | false =>
      simp only [List.map_cons, hpk, if_false]
      rw [List.find?_cons_of_neg _ (by simp [hpk])]
      refine ih ?_
      rwa [List.find?_cons_of_neg _ (by simp [hpk])] at h

theorem dictGet?_dictSet_self (d : Dict) (k : String) (v : JVal) :
    dictGet? (dictSet d k v) k = some v := by
  unfold dictGet? dictSet
  by_cases h : (d.find? (fun p => p.1 == k)).isSome
  · rw [if_pos h, find?_map_set d k v h]
  · rw [if_neg h, List.find?_append,
      Option.not_isSome_iff_eq_none.mp h]
    simp [List.find?]

theorem processItems_fst (ors : Oracles) (db : Option String) (da : Bool)
    (items : List Item) :
    (processItems ors db da items).1 =
      items.map (fun it => itemToDict (transformItem ors db da it).1) := by
  induction items with
  | nil => rfl
  | cons it rest ih => simp [processItems, ih]

theorem extendFeatures_ok (event : Dict) (new old : List JVal)
    (hold : featuresList? event = some old) :
    extendFeatures event new =
      .ok (dictSet
        (if (dictGet? event "features").isSome then event
         else dictSet event "features" (.arr []))
        "features" (.arr (old ++ new))) := by
  unfold featuresList? at hold
  unfold extendFeatures
  cases hget : dictGet? event "features" with
  | none =>
    rw [hget] at hold
    have hnil : old = [] := by
      simpa using (Option.some.inj hold).symm
    subst hnil
    simp [hget, dictGet?_dictSet_self]
  | some v =>
    rw [hget] at hold
    cases v with
    | arr l =>
      have hl : l = old := by simpa using Option.some.inj hold
      subst hl
      simp [hget]
    | null => simp at hold
    | bool b => simp at hold
    | num n => simp at hold
    | str s => simp at hold
    | obj f => simp at hold
    | circular => simp at hold

/-! ## Claims -/

/-- C1: after the metadata-only transform, every remaining link relation is
in `{"canonical","collection","root"}`, no `"self"` link remains, and every
link that was `"self"` before the transform is present with relation
`"canonical"`. -/
theorem c1_metadata_only_links (it : Item) :
    (∀ l ∈ (prepare_item_for_indexing it).links, l.rel ∈ allowedRels) ∧
    (∀ l ∈ (prepare_item_for_indexing it).links, l.rel ≠ "self") ∧
    (∀ l ∈ it.links, l.rel = "self" →
      ({ l with rel := "canonical" } : Link) ∈ (prepare_item_for_indexing it).links) := by
  refine ⟨?_, ?_, ?_⟩
  · intro l hl
    simp only [prepare_item_for_indexing, List.mem_filter, decide_eq_true_eq] at hl
    exact hl.2
  · intro l hl
    simp only [prepare_item_for_indexing, List.mem_filter, decide_eq_true_eq] at hl
    have h2 := hl.2
    simp only [allowedRels, List.mem_cons, List.not_mem_nil, or_false] at h2
    rcases h2 with h | h | h <;> (rw [h]; decide)
  · intro l hl hself
    have hmap : renameSelf l ∈ it.links.map renameSelf := List.mem_map_of_mem renameSelf hl
    have hr : renameSelf l = { l with rel := "canonical" } := by
      simp [renameSelf, hself]
    rw [hr] at hmap
    refine List.mem_filter.mpr ⟨hmap, ?_⟩
    simp [allowedRels]

/-- C1 witness: a concrete item whose `"self"` link is reclassified. -/
theorem c1_metadata_only_links_witness :
    ((⟨"self", "http://x"⟩ : Link) ∈
      (⟨"i", [], [⟨"self", "http://x"⟩, ⟨"child", "http://c"⟩], []⟩ : Item).links) ∧
    ({ (⟨"self", "http://x"⟩ : Link) with rel := "canonical" } ∈
      (prepare_item_for_indexing
        ⟨"i", [], [⟨"self", "http://x"⟩, ⟨"child", "http://c"⟩], []⟩).links) :=
  ⟨by decide,
   (c1_metadata_only_links
      ⟨"i", [], [⟨"self", "http://x"⟩, ⟨"child", "http://c"⟩], []⟩).2.2
     ⟨"self", "http://x"⟩ (by decide) rfl⟩

/-- C10: the metadata-only transform changes only the links: the id, the
assets and all remaining item content are untouched, and the retained links
appear in their original relative order (they form a sublist of the
renamed original link list). -/
theorem c10_metadata_only_frame (it : Item) :
    (prepare_item_for_indexing it).id = it.id ∧
    (prepare_item_for_indexing it).assets = it.assets ∧
    (prepare_item_for_indexing it).extraFields = it.extraFields ∧
    List.Sublist (prepare_item_for_indexing it).links (it.links.map renameSelf) :=
  ⟨rfl, rfl, rfl, List.filter_sublist _⟩

/-- C4 counterexample: for the single date `"2024-06-01"` the code produces
the range with full ISO datetimes (`T00:00:00`), not the `YYYY-MM-DD` range
form the claim states. -/
theorem c4_counterexample :
    datetime_query "2024-06-01" =
      .ok "2024-06-01T00:00:00/2024-06-02T00:00:00" ∧
    spec_datetime_query "2024-06-01" = .ok "2024-06-01/2024-06-02" ∧
    datetime_query "2024-06-01" ≠ spec_datetime_query "2024-06-01" := by
  refine ⟨rfl, rfl, ?_⟩
  intro h
  rw [show datetime_query "2024-06-01" =
        .ok "2024-06-01T00:00:00/2024-06-02T00:00:00" from rfl,
      show spec_datetime_query "2024-06-01" = .ok "2024-06-01/2024-06-02" from rfl] at h
  exact absurd (Except.ok.inj h) (by decide)

/-- C4 (amended): a date containing `"/"` is passed to the catalog search
completely unmodified (both by the normalization and in the recorded search
call); a single parseable date whose successor stays within `datetime`'s
`MAXYEAR` bound becomes the half-open one-day range rendered as full ISO
datetimes `YYYY-MM-DDT00:00:00/YYYY-MM-DDT00:00:00`; at the bound
(`"9999-12-31"`) the day increment raises `OverflowError` and no search
happens, so no conversion is performed there. -/
theorem c4_date_normalization (ds : String) :
    (strContains ds "/" = true →
      datetime_query ds = .ok ds ∧
      ∀ ors tile mi, (query_planetary_computer ors tile (.str ds) mi).2 =
        [Effect.searchCall COLLECTION ds tile mi]) ∧
    (∀ d d2, parseYMD ds = some d → nextDay d = some d2 →
      strContains ds "/" = false →
      datetime_query ds = .ok (d.isoformat ++ "/" ++ d2.isoformat)) ∧
    (∀ d, parseYMD ds = some d → nextDay d = none →
      strContains ds "/" = false →
      datetime_query ds = .error .overflow ∧
      ∀ ors tile mi, query_planetary_computer ors tile (.str ds) mi =
        (.error .overflowError, [])) := by
  refine ⟨?_, ?_, ?_⟩
  · intro hc
    have hq : datetime_query ds = .ok ds := by
      unfold datetime_query; rw [hc]; rfl
    refine ⟨hq, ?_⟩
    intro ors tile mi
    simp only [query_planetary_computer, hq]
    cases ors.search ds <;> rfl
  · intro d d2 hd hd2 hc
    simp only [datetime_query, hc, Bool.false_eq_true, if_false, hd, hd2]
  · intro d hd hd2 hc
    have hq : datetime_query ds = .error .overflow := by
      simp only [datetime_query, hc, Bool.false_eq_true, if_false, hd, hd2]
    refine ⟨hq, ?_⟩
    intro ors tile mi
    simp only [query_planetary_computer, hq]

/-- C4 witness: the range `"2024-06-01/2024-06-03"` passes through
unmodified; the single date `"2024-06-01"` becomes the
midnight-to-midnight one-day range; the bound date `"9999-12-31"` raises
the overflow instead of converting. -/
theorem c4_date_normalization_witness :
    (strContains "2024-06-01/2024-06-03" "/" = true) ∧
    datetime_query "2024-06-01/2024-06-03" = .ok "2024-06-01/2024-06-03" ∧
    (parseYMD "2024-06-01" = some ⟨2024, 6, 1⟩) ∧
    (nextDay ⟨2024, 6, 1⟩ = some ⟨2024, 6, 2⟩) ∧
    datetime_query "2024-06-01" =
      .ok ((⟨2024, 6, 1⟩ : Date).isoformat ++ "/" ++
        (⟨2024, 6, 2⟩ : Date).isoformat) ∧
    (parseYMD "9999-12-31" = some ⟨9999, 12, 31⟩) ∧
    (nextDay ⟨9999, 12, 31⟩ = none) ∧
    datetime_query "9999-12-31" = .error .overflow :=
  ⟨by decide,
   ((c4_date_normalization "2024-06-01/2024-06-03").1 (by decide)).1,
   by decide,
   by decide,
   (c4_date_normalization "2024-06-01").2.1 ⟨2024, 6, 1⟩ ⟨2024, 6, 2⟩
     (by decide) (by decide) (by decide),
   by decide,
   by decide,
   ((c4_date_normalization "9999-12-31").2.2 ⟨9999, 12, 31⟩
     (by decide) (by decide) (by decide)).1⟩

/-- C9: when serialization of the payload fails, the size check defaults to
offloading (`true`); the check itself is a total function, so no exception
escapes it. -/
theorem c9_size_check_fail_safe (payload : Dict)
    (h : dumps (.obj payload) = none) :
    should_upload_to_s3 payload = true := by
  unfold should_upload_to_s3
  rw [h]

/-- C9 witness: a payload with circular content serializes to `none` and is
sent to the offload branch. -/
theorem c9_size_check_fail_safe_witness :
    dumps (.obj [("x", .circular)]) = none ∧
    should_upload_to_s3 [("x", .circular)] = true :=
  ⟨rfl, c9_size_check_fail_safe [("x", .circular)] rfl⟩

/-- C7: the transformed items are appended to `features` in catalog order,
after any pre-existing features; the pre-existing features stay an
unmodified prefix and the sequence never shrinks.  The last conjunct
anchors this to the handler: once the configuration is valid and the
catalog query succeeds, the invocation runs exactly the
process-and-extend stage. -/
theorem c7_features_accumulate (env : Env) (ors : Oracles) (event : Dict)
    (da : Bool) (items : List Item) (old : List JVal)
    (hold : featuresList? event = some old) :
    (processItems ors env.dataBucket da items).1 =
      items.map (fun it => itemToDict (transformItem ors env.dataBucket da it).1) ∧
    (∃ event2,
      extendFeatures event (processItems ors env.dataBucket da items).1 = .ok event2 ∧
      featuresList? event2 =
        some (old ++ (processItems ors env.dataBucket da items).1) ∧
      List.IsPrefix old (old ++ (processItems ors env.dataBucket da items).1) ∧
      old.length ≤ (old ++ (processItems ors env.dataBucket da items).1).length) ∧
    (∀ cfg effs, extractTaskCfg event = .ok cfg →
      (falsy cfg.tile || falsy cfg.date) = false →
      query_planetary_computer ors cfg.tile cfg.date cfg.max_items = (.ok items, effs) →
      handlerCore env ors event =
        ((afterQuery env ors event cfg items).1,
         effs ++ (afterQuery env ors event cfg items).2)) := by
  refine ⟨processItems_fst ors env.dataBucket da items, ?_, ?_⟩
  · refine ⟨_, extendFeatures_ok event _ old hold, ?_, ?_, ?_⟩
    · unfold featuresList?
      rw [dictGet?_dictSet_self]
    · exact ⟨_, rfl⟩
    · simp
  · intro cfg effs hex hval hq
    unfold handlerCore
    rw [hex]
    dsimp only
    rw [hval]
    simp only [Bool.false_eq_true, if_false]
    unfold afterValidation
    rw [hq]

/-- C7 witness: one catalog item appended after one pre-existing feature. -/
theorem c7_features_accumulate_witness :
    featuresList? [("features", .arr [.str "pre"])] = some [.str "pre"] ∧
    (∃ event2,
      extendFeatures [("features", .arr [.str "pre"])]
        (processItems ⟨fun _ => .ok [], id, fun _ => .error "x",
          fun _ _ _ => .ok ()⟩ none false
          [⟨"i", [], [⟨"self", "s"⟩], []⟩]).1 = .ok event2 ∧
      featuresList? event2 =
        some ([.str "pre"] ++
          (processItems ⟨fun _ => .ok [], id, fun _ => .error "x",
            fun _ _ _ => .ok ()⟩ none false
            [⟨"i", [], [⟨"self", "s"⟩], []⟩]).1) ∧
      List.IsPrefix [JVal.str "pre"]
        ([.str "pre"] ++
          (processItems ⟨fun _ => .ok [], id, fun _ => .error "x",
            fun _ _ _ => .ok ()⟩ none false
            [⟨"i", [], [⟨"self", "s"⟩], []⟩]).1) ∧
      ([JVal.str "pre"] : List JVal).length ≤
        ([JVal.str "pre"] ++
          (processItems ⟨fun _ => .ok [], id, fun _ => .error "x",
            fun _ _ _ => .ok ()⟩ none false
            [⟨"i", [], [⟨"self", "s"⟩], []⟩]).1).length) :=
  ⟨rfl,
   (c7_features_accumulate ⟨none, none, "T"⟩
     ⟨fun _ => .ok [], id, fun _ => .error "x", fun _ _ _ => .ok ()⟩
     [("features", .arr [.str "pre"])] false
     [⟨"i", [], [⟨"self", "s"⟩], []⟩] [.str "pre"] rfl).2.1⟩

/-- The `except` clause's annotation step, evaluated on a payload whose
`errors` entry is absent or a list. -/
theorem annotateError_eq (d : Dict) (e : PErr) (now : String) (old : List JVal)
    (hold : errorsList? d = some old) :
    annotateError d e now = some (dictSet
      (if (dictGet? d "errors").isSome then d else dictSet d "errors" (.arr []))
      "errors" (.arr (old ++ [errRecord e now]))) := by
  unfold errorsList? at hold
  unfold annotateError
  cases hget : dictGet? d "errors" with
  | none =>
    rw [hget] at hold
    have hnil : old = [] := by simpa using (Option.some.inj hold).symm
    subst hnil
    simp only [hget, Option.isSome_none, Bool.false_eq_true, if_false,
      dictGet?_dictSet_self]
  | some v =>
    rw [hget] at hold
    cases v with
    | arr l =>
      have hl : l = old := by simpa using Option.some.inj hold
      subst hl
      simp only [hget, Option.isSome_some, if_true]
    | null => simp at hold
    | bool b => simp at hold
    | num n => simp at hold
    | str s => simp at hold
    | obj f => simp at hold
    | circular => simp at hold

/-- C8: when the pipeline body raises, the handler appends exactly one
error record `{task, error, timestamp}` to the payload's `errors` sequence
(creating it when absent) and re-raises the same exception; the fatal path
never produces a success result. -/
theorem c8_error_annotation (env : Env) (ors : Oracles) (event : Dict)
    (e : PErr) (d : Dict) (effs : List Effect) (old : List JVal)
    (hc : handlerCore env ors event = (.error (e, d), effs))
    (hold : errorsList? d = some old) :
    ∃ d2, lambda_handler env ors event = (.error (e, some d2), effs) ∧
      errorsList? d2 = some (old ++ [errRecord e env.now]) := by
  refine ⟨dictSet
      (if (dictGet? d "errors").isSome then d else dictSet d "errors" (.arr []))
      "errors" (.arr (old ++ [errRecord e env.now])), ?_, ?_⟩
  · unfold lambda_handler
    rw [hc]
    dsimp only
    rw [annotateError_eq d e env.now old hold]
  · unfold errorsList?
    rw [dictGet?_dictSet_self]

/-- C8 witness: a run failing validation annotates the payload with one
error record and re-raises the configuration error. -/
theorem c8_error_annotation_witness :
    ∃ d2,
      lambda_handler ⟨none, none, "2024-01-01T00:00:00"⟩
        ⟨fun _ => .ok [], id, fun _ => .error "x", fun _ _ _ => .ok ()⟩
        [("process", .arr [.obj []])] =
        (.error (.configError, some d2), []) ∧
      errorsList? d2 =
        some ([] ++ [errRecord .configError "2024-01-01T00:00:00"]) :=
  c8_error_annotation ⟨none, none, "2024-01-01T00:00:00"⟩
    ⟨fun _ => .ok [], id, fun _ => .error "x", fun _ _ _ => .ok ()⟩
    [("process", .arr [.obj []])] .configError
    [("process", .arr [.obj []])] [] [] rfl rfl

/-! ### Case-analysis lemmas for the orchestrator -/

theorem extendFeatures_error_shape (event : Dict) (new : List JVal) (e : PErr)
    (h : extendFeatures event new = .error e) : ∃ m, e = .typeError m := by
  unfold extendFeatures at h
  split at h
  · dsimp only at h
    split at h
    · exact absurd h (by simp)
    · exact ⟨_, (Except.error.inj h).symm⟩
  · dsimp only at h
    split at h
    · exact absurd h (by simp)
    · exact ⟨_, (Except.error.inj h).symm⟩

theorem query_not_configError (ors : Oracles) (tile date mi : JVal)
    (effs : List Effect) :
    query_planetary_computer ors tile date mi ≠ (.error .configError, effs) := by
  intro h
  unfold query_planetary_computer at h
  split at h
  · rename_i ds
    split at h
    · simp at h
    · simp at h
    · split at h
      · simp at h
      · simp at h
  · simp at h

theorem upload_not_configError (ors : Oracles) (pb : Option String)
    (payload : Dict) (effs : List Effect) :
    upload_payload_to_s3 ors pb payload ≠ (.error .configError, effs) := by
  intro h
  unfold upload_payload_to_s3 at h
  split at h
  · simp at h
  · split at h
    · simp at h
    · split at h
      · simp at h
      · dsimp only at h
        split at h
        · simp at h
        · split at h
          · simp at h
          · simp at h

theorem afterQuery_not_configError (env : Env) (ors : Oracles) (event : Dict)
    (cfg : TaskCfg) (items : List Item) (od : Dict) (effs : List Effect) :
    afterQuery env ors event cfg items ≠ (.error (.configError, od), effs) := by
  intro h
  unfold afterQuery at h
  dsimp only at h
  split at h
  · rename_i e hef
    obtain ⟨m, hm⟩ := extendFeatures_error_shape _ _ _ hef
    subst hm
    simp at h
  · rename_i event2 hef
    split at h
    · split at h
      · simp at h
      · rename_i e effs3 hup
        have he : e = .configError := by
          have := (Prod.mk.injEq _ _ _ _ ▸ h).1
          exact congrArg Prod.fst (Except.error.inj this)
        subst he
        exact upload_not_configError ors env.payloadBucket event2 effs3 hup
    · simp at h

theorem afterValidation_not_configError (env : Env) (ors : Oracles)
    (event : Dict) (cfg : TaskCfg) (od : Dict) (effs : List Effect) :
    afterValidation env ors event cfg ≠ (.error (.configError, od), effs) := by
  intro h
  unfold afterValidation at h
  split at h
  · rename_i e effs0 hq
    have he : e = .configError := by
      have := (Prod.mk.injEq _ _ _ _ ▸ h).1
      exact congrArg Prod.fst (Except.error.inj this)
    subst he
    exact query_not_configError ors cfg.tile cfg.date cfg.max_items effs0 hq
  · rename_i items effs0 hq
    dsimp only at h
    have h1 := (Prod.mk.injEq _ _ _ _ ▸ h).1
    refine afterQuery_not_configError env ors event cfg items od
      (afterQuery env ors event cfg items).2 ?_
    exact Prod.ext h1 rfl

/-- A successful handler run either returned the full (extended) payload,
which passed the size check, or offloaded a payload that failed it. -/
theorem handlerCore_ok_cases (env : Env) (ors : Oracles) (event : Dict)
    (r : Response) (effs : List Effect)
    (h : handlerCore env ors event = (.ok r, effs)) :
    (∃ ev2, r = .payload ev2 ∧ should_upload_to_s3 ev2 = false) ∨
    (∃ ev2 u effs3, r = .url u ∧ should_upload_to_s3 ev2 = true ∧
      upload_payload_to_s3 ors env.payloadBucket ev2 = (.ok u, effs3)) := by
  unfold handlerCore at h
  split at h
  · simp at h
  · split at h
    · simp at h
    · unfold afterValidation at h
      split at h
      · simp at h
      · rename_i items effs0 hq
        dsimp only at h
        have h1 := (Prod.mk.injEq _ _ _ _ ▸ h).1
        unfold afterQuery at h1
        dsimp only at h1
        split at h1
        · simp at h1
        · rename_i event2 hef
          split at h1
          · rename_i hsu
            split at h1
            · rename_i u effs3 hup
              dsimp only at h1
              right
              exact ⟨event2, u, effs3, (Except.ok.inj h1).symm, hsu, hup⟩
            · simp at h1
          · rename_i hsu
            dsimp only at h1
            left
            exact ⟨event2, (Except.ok.inj h1).symm,
              Bool.not_eq_true _ ▸ hsu⟩

/-- C2: the offload decision is exactly "serialized byte length exceeds
240000", and a completed invocation returns the minimal `{"url": ...}`
response precisely when the decision on the extended payload was `true`
(otherwise the full payload comes back). -/
theorem c2_offload_decision :
    (∀ p s, dumps (.obj p) = some s →
      (should_upload_to_s3 p = true ↔ THRESHOLD < s.utf8ByteSize)) ∧
    (∀ env ors event d effs,
      handlerCore env ors event = (.ok (.payload d), effs) →
      should_upload_to_s3 d = false) ∧
    (∀ env ors event u effs,
      handlerCore env ors event = (.ok (.url u), effs) →
      ∃ ev2 effs3, should_upload_to_s3 ev2 = true ∧
        upload_payload_to_s3 ors env.payloadBucket ev2 = (.ok u, effs3)) := by
  refine ⟨?_, ?_, ?_⟩
  · intro p s hs
    unfold should_upload_to_s3
    rw [hs]
    simp
  · intro env ors event d effs h
    rcases handlerCore_ok_cases env ors event _ _ h with
      ⟨ev2, hr, hsu⟩ | ⟨ev2, u, effs3, hr, _, _⟩
    · rw [Response.payload.inj hr]
      exact hsu
    · exact absurd hr (by simp)
  · intro env ors event u effs h
    rcases handlerCore_ok_cases env ors event _ _ h with
      ⟨ev2, hr, _⟩ | ⟨ev2, u2, effs3, hr, hsu, hup⟩
    · exact absurd hr (by simp)
    · have hu : u2 = u := (Response.url.inj hr).symm
      subst hu
      exact ⟨ev2, effs3, hsu, hup⟩

/-- C2 witness: a small payload serializes to 13 bytes and stays inline. -/
theorem c2_offload_decision_witness :
    dumps (.obj [("id", .str "x")]) = some "\x7b\"id\": \"x\"\x7d" ∧
    (should_upload_to_s3 [("id", .str "x")] = true ↔
      THRESHOLD < ("\x7b\"id\": \"x\"\x7d" : String).utf8ByteSize) :=
  ⟨rfl, c2_offload_decision.1 [("id", .str "x")] "\x7b\"id\": \"x\"\x7d" rfl⟩

/-- Truthiness of a value that is either absent (`None`) or a string:
falsy exactly when absent or empty. -/
theorem falsy_str_or_null (v : JVal) (hv : v = .null ∨ ∃ s, v = .str s) :
    (falsy v = true ↔ (v = .null ∨ v = .str "")) := by
  rcases hv with h | ⟨s, h⟩ <;> subst h
  · simp [falsy]
  · constructor
    · intro hf
      right
      have hs : s = "" := by simpa [falsy] using hf
      rw [hs]
    · intro hf
      rcases hf with h | h
      · exact absurd h (by simp)
      · have hs : s = "" := JVal.str.inj h
        subst hs
        rfl

/-- C3: for a well-formed request (the process/tasks structure extracts,
and `tile`/`date` are strings when present), the invocation raises the
configuration `ValueError` exactly when `tile` or `date` is absent or
empty; otherwise validation passes and the run proceeds into the catalog
query stage. -/
theorem c3_validation (env : Env) (ors : Oracles) (event : Dict)
    (cfg : TaskCfg)
    (hex : extractTaskCfg event = .ok cfg)
    (htile : cfg.tile = .null ∨ ∃ s, cfg.tile = .str s)
    (hdate : cfg.date = .null ∨ ∃ s, cfg.date = .str s) :
    ((∃ od effs, lambda_handler env ors event =
        (.error (.configError, od), effs)) ↔
      ((cfg.tile = .null ∨ cfg.tile = .str "") ∨
       (cfg.date = .null ∨ cfg.date = .str ""))) ∧
    ((falsy cfg.tile || falsy cfg.date) = false →
      handlerCore env ors event = afterValidation env ors event cfg) := by
  have hcore_pass : (falsy cfg.tile || falsy cfg.date) = false →
      handlerCore env ors event = afterValidation env ors event cfg := by
    intro hval
    unfold handlerCore
    rw [hex]
    dsimp only
    rw [hval]
    simp only [Bool.false_eq_true, if_false]
  refine ⟨⟨?_, ?_⟩, hcore_pass⟩
  · rintro ⟨od, effs, hlam⟩
    by_contra hno
    have ht : falsy cfg.tile = false := by
      rw [← Bool.not_eq_true]
      intro hf
      exact hno (Or.inl ((falsy_str_or_null cfg.tile htile).mp hf))
    have hd : falsy cfg.date = false := by
      rw [← Bool.not_eq_true]
      intro hf
      exact hno (Or.inr ((falsy_str_or_null cfg.date hdate).mp hf))
    have hval : (falsy cfg.tile || falsy cfg.date) = false := by
      rw [ht, hd]; rfl
    have hc := hcore_pass hval
    unfold lambda_handler at hlam
    rw [hc] at hlam
    cases hav : afterValidation env ors event cfg with
    | mk res effs0 =>
      rw [hav] at hlam
      cases res with
      | ok r => simp at hlam
      | error p =>
        obtain ⟨e, d⟩ := p
        dsimp only at hlam
        have h1 := (Prod.mk.injEq _ _ _ _ ▸ hlam).1
        have he : e = .configError := congrArg Prod.fst (Except.error.inj h1)
        subst he
        exact afterValidation_not_configError env ors event cfg d effs0 hav
  · intro hor
    have hval : (falsy cfg.tile || falsy cfg.date) = true := by
      rcases hor with h | h
      · have hf : falsy cfg.tile = true := (falsy_str_or_null cfg.tile htile).mpr h
        rw [hf]
        rfl
      · have hf : falsy cfg.date = true := (falsy_str_or_null cfg.date hdate).mpr h
        rw [hf]
        simp
    have hc : handlerCore env ors event = (.error (.configError, event), []) := by
      unfold handlerCore
      rw [hex]
      dsimp only
      rw [hval]
      simp only [if_true]
    refine ⟨annotateError event .configError env.now, [], ?_⟩
    unfold lambda_handler
    rw [hc]

/-- C3 witness: a request with a tile but no date raises the configuration
error. -/
theorem c3_validation_witness :
    extractTaskCfg evTileOnly =
      .ok ⟨.str "33UUP", .null, .bool false, .num 100⟩ ∧
    ((∃ od effs,
        lambda_handler envTrivial orsTrivial evTileOnly =
          (.error (.configError, od), effs)) ↔
      (((JVal.str "33UUP") = .null ∨ (JVal.str "33UUP") = .str "") ∨
       ((JVal.null : JVal) = .null ∨ (JVal.null : JVal) = .str ""))) :=
  ⟨rfl,
   (c3_validation envTrivial orsTrivial evTileOnly
     ⟨.str "33UUP", .null, .bool false, .num 100⟩ rfl
     (Or.inr ⟨"33UUP", rfl⟩) (Or.inl rfl)).1⟩

/-! ### Per-asset loop lemmas -/

theorem lookupAsset_cons (p : String × Asset) (rest : List (String × Asset))
    (k : String) :
    lookupAsset (p :: rest) k =
      if p.1 == k then some p.2 else lookupAsset rest k := by
  unfold lookupAsset
  cases hpk : (p.1 == k) with
  | true =>
    rw [List.find?_cons_of_pos _ (by simp [hpk])]
    simp
  | false =>
    rw [List.find?_cons_of_neg _ (by simp [hpk])]
    simp

theorem lookupAsset_of_mem_nodup (assets : List (String × Asset))
    (k : String) (a : Asset)
    (hmem : (k, a) ∈ assets) (hnd : (assets.map Prod.fst).Nodup) :
    lookupAsset assets k = some a := by
  induction assets with
  | nil => simp at hmem
  | cons p rest ih =>
    rw [List.map_cons] at hnd
    have hnd' := List.nodup_cons.mp hnd
    rw [lookupAsset_cons]
    rcases List.mem_cons.mp hmem with h | h
    · rw [← h]
      simp
    · have hne : (p.1 == k) = false := by
        rw [beq_eq_false_iff_ne]
        intro hpk
        exact hnd'.1 (hpk ▸ (List.mem_map.mpr ⟨(k, a), h, rfl⟩))
      rw [hne]
      simp only [Bool.false_eq_true, if_false]
      exact ih h hnd'.2

theorem mem_nodup_unique (assets : List (String × Asset)) (k : String)
    (a b : Asset) (hnd : (assets.map Prod.fst).Nodup)
    (ha : (k, a) ∈ assets) (hb : (k, b) ∈ assets) : a = b := by
  have h1 := lookupAsset_of_mem_nodup assets k a ha hnd
  have h2 := lookupAsset_of_mem_nodup assets k b hb hnd
  rw [h1] at h2
  exact Option.some.inj h2

theorem lookupAsset_update_ne (assets : List (String × Asset))
    (k2 k href : String) (hne : k2 ≠ k) :
    lookupAsset (updateAssetHref assets k2 href) k = lookupAsset assets k := by
  induction assets with
  | nil => rfl
  | cons p rest ih =>
    simp only [updateAssetHref, List.map_cons] at ih ⊢
    by_cases hp2 : p.1 = k2
    · simp only [lookupAsset_cons, hp2, beq_self_eq_true, if_true]
      have hk2k : (k2 == k) = false := by
        rw [beq_eq_false_iff_ne]
        exact hne
      simp only [hk2k, Bool.false_eq_true, if_false]
      exact ih
    · have hp2b : (p.1 == k2) = false := by
        rw [beq_eq_false_iff_ne]
        exact hp2
      simp only [hp2b, Bool.false_eq_true, if_false, lookupAsset_cons]
      cases hpk : (p.1 == k) with
      | true => rfl
      | false =>
        simp only [Bool.false_eq_true, if_false]
        exact ih

theorem lookupAsset_update_self (assets : List (String × Asset))
    (k href : String) (a : Asset)
    (hlook : lookupAsset assets k = some a) :
    lookupAsset (updateAssetHref assets k href) k =
      some { a with href := href } := by
  induction assets with
  | nil => simp [lookupAsset, List.find?] at hlook
  | cons p rest ih =>
    rw [lookupAsset_cons] at hlook
    simp only [updateAssetHref, List.map_cons] at ih ⊢
    cases hpk : (p.1 == k) with
    | true =>
      have hp : p.1 = k := by simpa using hpk
      simp [hp] at hlook
      simp [lookupAsset_cons, hpk, hlook]
    | false =>
      have hp : ¬p.1 = k := by simpa using hpk
      simp [hp] at hlook
      simp [lookupAsset_cons, hpk]
      simpa using ih hlook

theorem processAssets_lookup_preserved (ors : Oracles) (db : Option String)
    (iid : String) (sas : List (String × Asset)) (k : String) :
    ∀ it : Item,
    (∀ p ∈ sas, p.1 = k →
      (mediaMatches p.2.media_type = false ∨
       (perAsset ors db iid p.1 p.2).1 = none)) →
    lookupAsset (processAssets ors db iid sas it).1.assets k =
      lookupAsset it.assets k := by
  induction sas with
  | nil => intro it _; rfl
  | cons pa rest ih =>
    intro it hsafe
    obtain ⟨k1, a1⟩ := pa
    simp only [processAssets]
    cases hm : mediaMatches a1.media_type with
    | false =>
      simp only [hm, Bool.false_eq_true, if_false]
      exact ih it (fun p hp => hsafe p (List.mem_cons_of_mem _ hp))
    | true =>
      simp only [hm, if_true]
      cases hpa : perAsset ors db iid k1 a1 with
      | mk o effs =>
        cases o with
        | some href =>
          dsimp only
          by_cases hk : k1 = k
          · rcases hsafe (k1, a1) (List.mem_cons_self _ _) hk with hc | hc
            · rw [hm] at hc
              exact absurd hc (by simp)
            · rw [hpa] at hc
              simp at hc
          · rw [ih _ (fun p hp => hsafe p (List.mem_cons_of_mem _ hp))]
            exact lookupAsset_update_ne it.assets k1 k href hk
        | none =>
          dsimp only
          exact ih it (fun p hp => hsafe p (List.mem_cons_of_mem _ hp))

theorem perAsset_httpGet_shape (ors : Oracles) (db : Option String)
    (iid k : String) (a : Asset) (h : String)
    (hmem : Effect.httpGet h ∈ (perAsset ors db iid k a).2) : h = a.href := by
  unfold perAsset at hmem
  split at hmem
  · simpa using hmem
  · dsimp only at hmem
    split at hmem
    · simpa using hmem
    · simpa using hmem

theorem processAssets_httpGet_only_matching (ors : Oracles)
    (db : Option String) (iid : String) (sas : List (String × Asset)) :
    ∀ (it : Item) (h : String),
    Effect.httpGet h ∈ (processAssets ors db iid sas it).2 →
      ∃ p, p ∈ sas ∧ mediaMatches p.2.media_type = true ∧ h = p.2.href := by
  induction sas with
  | nil =>
    intro it h hmem
    simp [processAssets] at hmem
  | cons pa rest ih =>
    intro it h hmem
    obtain ⟨k1, a1⟩ := pa
    simp only [processAssets] at hmem
    cases hm : mediaMatches a1.media_type with
    | false =>
      rw [hm] at hmem
      simp only [Bool.false_eq_true, if_false] at hmem
      obtain ⟨p, hp, hmm, hh⟩ := ih it h hmem
      exact ⟨p, List.mem_cons_of_mem _ hp, hmm, hh⟩
    | true =>
      rw [hm] at hmem
      simp only [if_true] at hmem
      cases hpa : perAsset ors db iid k1 a1 with
      | mk o effs =>
        rw [hpa] at hmem
        cases o with
        | some href =>
          dsimp only at hmem
          rw [List.mem_append] at hmem
          rcases hmem with hmem | hmem
          · have hh : h = a1.href := by
              refine perAsset_httpGet_shape ors db iid k1 a1 h ?_
              rw [hpa]
              exact hmem
            exact ⟨(k1, a1), List.mem_cons_self _ _, hm, hh⟩
          · obtain ⟨p, hp, hmm, hh⟩ := ih _ h hmem
            exact ⟨p, List.mem_cons_of_mem _ hp, hmm, hh⟩
        | none =>
          dsimp only at hmem
          rw [List.mem_append] at hmem
          rcases hmem with hmem | hmem
          · have hh : h = a1.href := by
              refine perAsset_httpGet_shape ors db iid k1 a1 h ?_
              rw [hpa]
              exact hmem
            exact ⟨(k1, a1), List.mem_cons_self _ _, hm, hh⟩
          · obtain ⟨p, hp, hmm, hh⟩ := ih _ h hmem
            exact ⟨p, List.mem_cons_of_mem _ hp, hmm, hh⟩

theorem processAssets_lookup_updated (ors : Oracles) (db : Option String)
    (iid : String) (sas : List (String × Asset)) (k : String)
    (asig : Asset) (href2 : String) :
    ∀ (it : Item) (astored : Asset),
    (sas.map Prod.fst).Nodup →
    (k, asig) ∈ sas →
    mediaMatches asig.media_type = true →
    (perAsset ors db iid k asig).1 = some href2 →
    lookupAsset it.assets k = some astored →
    lookupAsset (processAssets ors db iid sas it).1.assets k =
      some { astored with href := href2 } := by
  induction sas with
  | nil =>
    intro it astored _ hmem
    simp at hmem
  | cons pa rest ih =>
    intro it astored hnd hmem hm hsucc hlook
    obtain ⟨k1, a1⟩ := pa
    rw [List.map_cons] at hnd
    have hnd' := List.nodup_cons.mp hnd
    by_cases hk : k1 = k
    · subst hk
      have ha1 : a1 = asig := by
        rcases List.mem_cons.mp hmem with h | h
        · exact ((Prod.mk.injEq _ _ _ _ ▸ h).2).symm
        · exact absurd (List.mem_map.mpr ⟨(k1, asig), h, rfl⟩) hnd'.1
      subst ha1
      simp only [processAssets, hm, if_true]
      cases hpa : perAsset ors db iid k1 a1 with
      | mk o effs =>
        have ho : o = some href2 := by
          rw [hpa] at hsucc
          exact hsucc
        subst ho
        dsimp only
        rw [processAssets_lookup_preserved ors db iid rest k1 _ ?hsafe]
        · exact lookupAsset_update_self it.assets k1 href2 astored hlook
        case hsafe =>
          intro p hp hpk
          exact absurd (List.mem_map.mpr ⟨p, hp, hpk⟩) hnd'.1
    · have hmem' : (k, asig) ∈ rest := by
        rcases List.mem_cons.mp hmem with h | h
        · exact absurd (congrArg Prod.fst h.symm) hk
        · exact h
      simp only [processAssets]
      cases hm1 : mediaMatches a1.media_type with
      | false =>
        simp only [Bool.false_eq_true, if_false]
        exact ih it astored hnd'.2 hmem' hm hsucc hlook
      | true =>
        simp only [if_true]
        cases hpa1 : perAsset ors db iid k1 a1 with
        | mk o1 e1 =>
          cases o1 with
          | some h1 =>
            dsimp only
            refine ih _ astored hnd'.2 hmem' hm hsucc ?_
            dsimp only
            rw [lookupAsset_update_ne it.assets k1 k h1 hk]
            exact hlook
          | none =>
            dsimp only
            exact ih it astored hnd'.2 hmem' hm hsucc hlook

theorem signItem_keys (f : String → String) (item : Item) :
    (signItem f item).assets.map Prod.fst = item.assets.map Prod.fst := by
  simp only [signItem, List.map_map]
  rfl

theorem processItems_append (ors : Oracles) (db : Option String) (da : Bool)
    (l1 l2 : List Item) :
    processItems ors db da (l1 ++ l2) =
      ((processItems ors db da l1).1 ++ (processItems ors db da l2).1,
       (processItems ors db da l1).2 ++ (processItems ors db da l2).2) := by
  induction l1 with
  | nil => simp [processItems]
  | cons it rest ih => simp [processItems, ih]

/-- C5: in asset-download mode, an asset whose media type is absent or
does not contain `"geotiff"` is never fetched and never mutated: its entry
(href included) is identical before and after the transform, and every
HTTP fetch in the trace targets the signed href of some geotiff asset. -/
theorem c5_non_geotiff_untouched (ors : Oracles) (db : Option String)
    (item : Item) (k : String) (a : Asset)
    (hnd : (item.assets.map Prod.fst).Nodup)
    (hmem : (k, a) ∈ item.assets)
    (hm : mediaMatches a.media_type = false) :
    lookupAsset (download_and_update_item ors db item).1.assets k = some a ∧
    (∀ h, Effect.httpGet h ∈ (download_and_update_item ors db item).2 →
      ∃ k2 a2, (k2, a2) ∈ item.assets ∧ mediaMatches a2.media_type = true ∧
        h = ors.signHref a2.href) := by
  constructor
  · unfold download_and_update_item
    rw [processAssets_lookup_preserved ors db item.id _ k item ?hsafe]
    · exact lookupAsset_of_mem_nodup item.assets k a hmem hnd
    case hsafe =>
      intro p hp hpk
      left
      replace hp : p ∈ item.assets.map
          (fun q => (q.1, { q.2 with href := ors.signHref q.2.href })) := hp
      obtain ⟨q, hq, hpq⟩ := List.mem_map.mp hp
      subst hpq
      dsimp only at hpk
      have hq2 : q.2 = a := by
        refine mem_nodup_unique item.assets k q.2 a hnd ?_ hmem
        rw [← hpk]
        exact hq
      dsimp only
      rw [hq2]
      exact hm
  · intro h hmem2
    replace hmem2 : Effect.httpGet h ∈
        (processAssets ors db item.id
          (item.assets.map
            (fun q => (q.1, { q.2 with href := ors.signHref q.2.href })))
          item).2 := hmem2
    obtain ⟨p, hp, hmm, hh⟩ :=
      processAssets_httpGet_only_matching ors db item.id _ item h hmem2
    obtain ⟨q, hq, hpq⟩ := List.mem_map.mp hp
    subst hpq
    exact ⟨q.1, q.2, hq, hmm, hh⟩

/-- C5 witness: the `"meta"` (JSON) asset of a two-asset item keeps its
entry byte-identical through the asset-download transform. -/
theorem c5_non_geotiff_untouched_witness :
    lookupAsset (download_and_update_item orsTrivial none itemA).1.assets
      "meta" = some ⟨"http://m", some "application/json"⟩ :=
  (c5_non_geotiff_untouched orsTrivial none itemA "meta"
    ⟨"http://m", some "application/json"⟩
    (by decide) (by decide) (by decide)).1

/-- C6: in asset-download mode, when the fetch-or-store of one geotiff
asset fails, that asset keeps its original href, every other geotiff asset
whose fetch-and-store succeeds still gets its rewritten `s3://` href, and
the item (as transformed) still lands in the features sequence at its
position; the per-asset loop is total, so no exception escapes it. -/
theorem c6_asset_failure_tolerated (ors : Oracles) (db : Option String)
    (item : Item) (k : String) (a : Asset)
    (hnd : (item.assets.map Prod.fst).Nodup)
    (hmem : (k, a) ∈ item.assets)
    (hm : mediaMatches a.media_type = true)
    (hfail : (perAsset ors db item.id k
      { a with href := ors.signHref a.href }).1 = none) :
    lookupAsset (download_and_update_item ors db item).1.assets k = some a ∧
    (∀ k2 a2 href2, (k2, a2) ∈ item.assets → k2 ≠ k →
      mediaMatches a2.media_type = true →
      (perAsset ors db item.id k2
        { a2 with href := ors.signHref a2.href }).1 = some href2 →
      lookupAsset (download_and_update_item ors db item).1.assets k2 =
        some { a2 with href := href2 }) ∧
    (∀ pre post,
      (processItems ors db true (pre ++ item :: post)).1 =
        (processItems ors db true pre).1 ++
          itemToDict (download_and_update_item ors db item).1 ::
          (processItems ors db true post).1) := by
  refine ⟨?_, ?_, ?_⟩
  · unfold download_and_update_item
    rw [processAssets_lookup_preserved ors db item.id _ k item ?hsafe]
    · exact lookupAsset_of_mem_nodup item.assets k a hmem hnd
    case hsafe =>
      intro p hp hpk
      right
      replace hp : p ∈ item.assets.map
          (fun q => (q.1, { q.2 with href := ors.signHref q.2.href })) := hp
      obtain ⟨q, hq, hpq⟩ := List.mem_map.mp hp
      subst hpq
      dsimp only at hpk ⊢
      have hq2 : q.2 = a := by
        refine mem_nodup_unique item.assets k q.2 a hnd ?_ hmem
        rw [← hpk]
        exact hq
      rw [hpk, hq2]
      exact hfail
  · intro k2 a2 href2 hmem2 hk2 hm2 hsucc2
    unfold download_and_update_item
    refine processAssets_lookup_updated ors db item.id _ k2
      { a2 with href := ors.signHref a2.href } href2 item a2 ?_ ?_ hm2 hsucc2 ?_
    · rw [signItem_keys]
      exact hnd
    · replace hmem2 := List.mem_map_of_mem
        (fun q => ((q : String × Asset).1,
          { q.2 with href := ors.signHref q.2.href })) hmem2
      exact hmem2
    · exact lookupAsset_of_mem_nodup item.assets k2 a2 hmem2 hnd
  · intro pre post
    rw [processItems_append]
    simp [processItems, transformItem]

/-- C6 witness: in a three-asset item whose `"b02"` fetch fails, `"b02"`
keeps its original href while `"b03"` is rewritten to its S3 location. -/
theorem c6_asset_failure_tolerated_witness :
    lookupAsset (download_and_update_item orsMixed (some "bucket")
      itemB).1.assets "b02" =
      some ⟨"a", some "image/tiff; application=geotiff"⟩ ∧
    lookupAsset (download_and_update_item orsMixed (some "bucket")
      itemB).1.assets "b03" =
      some ⟨"s3://bucket/sentinel-2-l2a/it1/b03.tif",
        some "image/tiff; application=geotiff"⟩ :=
  ⟨(c6_asset_failure_tolerated orsMixed (some "bucket") itemB "b02"
      ⟨"a", some "image/tiff; application=geotiff"⟩
      (by decide) (by decide) (by decide) (by decide)).1,
   (c6_asset_failure_tolerated orsMixed (some "bucket") itemB "b02"
      ⟨"a", some "image/tiff; application=geotiff"⟩
      (by decide) (by decide) (by decide) (by decide)).2.1 "b03"
      ⟨"b", some "image/tiff; application=geotiff"⟩
      "s3://bucket/sentinel-2-l2a/it1/b03.tif"
      (by decide) (by decide) (by decide) (by decide)⟩

end PC2S3
